import Mathlib

/-!
Verification of the AutoAgent web client (frontend/src/App.jsx): a shallow
embedding of its session-synchronization logic.

The component's reactive state is modelled as a record `ClientState`; each
event handler of the source (`checkState`, `handleInit`, `handleSend`,
`handleUpload`, the clear-view button) becomes a pure function from the
current state and the backend's response (an `Except`) to the next state,
together with the list of HTTP requests it issued.  Asynchronous
interleaving of the handlers is modelled separately by a small-step system
(`sysStep`) in which the moment a handler starts and the moment its awaited
response resolves are distinct events, with the set of in-flight requests
tracked explicitly.
-/

/-- A chat message as it appears on the wire and in component state:
`{ role, content }`. -/
structure Message where
  role : String
  content : String
deriving DecidableEq, Repr

/-- The session configuration posted to `/api/init`
(field names as in the source). -/
structure Config where
  container_name : String
  port : Int
  test_pull_name : String
  git_clone : Bool
  local_env : Bool
  model : String
deriving DecidableEq, Repr

/-- Response of `GET /api/state`.  `messages`, `available_agents` and
`agent_name` may be absent or null, modelled by `Option`. -/
structure StateResponse where
  initialized : Bool
  messages : Option (List Message)
  available_agents : Option (List String)
  agent_name : Option String
deriving DecidableEq, Repr

/-- Response of `POST /api/chat`: `{ response, agent_name, messages }`. -/
structure ChatResponse where
  response : String
  agent_name : Option String
  messages : List Message
deriving DecidableEq, Repr

/-- Response of `POST /api/upload`: `{ uploaded_files }`. -/
structure UploadResponse where
  uploaded_files : List String
deriving DecidableEq, Repr

/-- The component's reactive state: one field per `useState` hook of
`App.jsx` (refs and scroll position are presentation, not modelled). -/
structure ClientState where
  initialized : Bool
  config : Config
  loading : Bool
  messages : List Message
  input : String
  availableAgents : List String
  currentAgent : Option String
  uploading : Bool
  statusMessage : String
  errorMessage : String
deriving DecidableEq, Repr

/-- The `useState` defaults of `App.jsx` lines 10-17. -/
def defaultConfig : Config :=
  { container_name := "auto_agent"
  , port := 12347
  , test_pull_name := "autoagent_mirror"
  , git_clone := true
  , local_env := false
  , model := "gpt-4o-2024-08-06" }

/-- The component state at mount, before any effect runs. -/
def initialState : ClientState :=
  { initialized := false
  , config := defaultConfig
  , loading := false
  , messages := []
  , input := ""
  , availableAgents := []
  , currentAgent := none
  , uploading := false
  , statusMessage := ""
  , errorMessage := "" }

/-- An HTTP request issued by the client, with the data it carries. -/
inductive Request where
  | getState
  | postInit (c : Config)
  | postChat (message : String)
  | postUpload (files : List String)
deriving DecidableEq, Repr

/-- `checkState` (App.jsx lines 33-46), given the result of
`GET /api/state`: on success with `initialized` truthy it loads the
snapshot, substituting `[]` for missing `messages`/`available_agents`
(the `|| []` fallbacks); on failure it records an error message. -/
def checkState (s : ClientState) (r : Except Unit StateResponse) : ClientState :=
  match r with
  | .error _ => { s with errorMessage := "Could not refresh the session state." }
  | .ok d =>
    if d.initialized then
      { s with initialized := true
             , messages := d.messages.getD []
             , availableAgents := d.available_agents.getD []
             , currentAgent := d.agent_name }
    else s

/-- JavaScript `String.prototype.trim`: drop leading and trailing
whitespace (stated on the underlying character list so that it is
computable by kernel reduction). -/
def jsTrim (s : String) : String :=
  ⟨((s.data.dropWhile Char.isWhitespace).reverse.dropWhile
      Char.isWhitespace).reverse⟩

/-- The state of `handleSend` (App.jsx lines 78-101) right after the
optimistic update, while the `POST /api/chat` call is still pending:
the guard `if (!input.trim()) return` aborts on whitespace-only input,
otherwise the user message is appended, the input cleared and `loading`
set. -/
def handleSendPending (s : ClientState) : ClientState :=
  if jsTrim s.input = "" then s
  else
    { s with messages := s.messages ++ [{ role := "user", content := s.input }]
           , input := ""
           , loading := true }

/-- The continuation of `handleSend` once the chat call resolves:
on success the whole message list is replaced by the backend's list and
the agent updated; on failure an error is surfaced and nothing is rolled
back.  Either way `loading` is cleared. -/
def sendResolve (s : ClientState) (r : Except Unit ChatResponse) : ClientState :=
  match r with
  | .ok d =>
    { s with messages := d.messages
           , currentAgent := d.agent_name
           , statusMessage := "Response received."
           , loading := false }
  | .error _ =>
    { s with errorMessage := "Message failed. Please try again."
           , loading := false }

/-- `handleSend` end to end, given the eventual result of the chat call:
the final state and the requests issued. -/
def handleSend (s : ClientState) (r : Except Unit ChatResponse) :
    ClientState × List Request :=
  if jsTrim s.input = "" then (s, [])
  else (sendResolve (handleSendPending s) r, [Request.postChat s.input])

/-- The continuation of `handleUpload` (App.jsx lines 103-124) once the
upload call resolves; `uploading` is cleared either way. -/
def uploadResolve (s : ClientState) (r : Except Unit UploadResponse) : ClientState :=
  match r with
  | .ok d =>
    { s with statusMessage :=
        "Uploaded " ++ toString d.uploaded_files.length ++ " file(s)."
           , uploading := false }
  | .error _ =>
    { s with errorMessage := "Upload failed. Please retry."
           , uploading := false }

/-- `handleUpload` end to end: the guard
`if (!files || files.length === 0) return` makes a missing or empty file
list a no-op; otherwise `uploading` is set, the files are posted, and the
resolution applied. -/
def handleUpload (s : ClientState) (files : Option (List String))
    (r : Except Unit UploadResponse) : ClientState × List Request :=
  match files with
  | none => (s, [])
  | some fs =>
    if fs.length = 0 then (s, [])
    else (uploadResolve { s with uploading := true } r, [Request.postUpload fs])

/-- `handleInit` (App.jsx lines 64-76): sets `loading`, posts the config;
on success refreshes the state (`checkState`) and reports success, on
failure surfaces an error; clears `loading` either way. -/
def handleInit (s : ClientState) (r : Except Unit Unit)
    (sr : Except Unit StateResponse) : ClientState × List Request :=
  let s1 := { s with loading := true }
  match r with
  | .ok _ =>
    ({ checkState s1 sr with
         statusMessage := "Session initialized successfully."
       , loading := false },
     [Request.postInit s.config, Request.getState])
  | .error _ =>
    ({ s1 with errorMessage := "Initialization failed. Please verify your settings."
             , loading := false },
     [Request.postInit s.config])

/-- The toolbar Clear view button (App.jsx line 258): `setMessages([])`. -/
def clearView (s : ClientState) : ClientState :=
  { s with messages := [] }

/-- `formatRoleLabel` (App.jsx lines 149-154): known roles get their
labels, everything else falls back to the default label used for the
user. -/
def formatRoleLabel (role : String) : String :=
  if role = "assistant" then "Assistant"
  else if role = "system" then "System"
  else if role = "tool" then "Tool"
  else "You"

/-! ## Interleaving model

Each async handler is split into the event that starts it (guarded by the
same conditions under which its UI trigger can fire in the rendered tree:
the chat form and refresh button are only rendered when `initialized` and
are disabled while `loading`; the file input is disabled while
`uploading`; the clear-view button is never disabled) and the event that
resolves its awaited network call.  In-flight calls are tracked as a
multiset of operation kinds. -/

/-- The four backend operations, as entries of the in-flight list. -/
inductive OpKind where
  | fetchStateOp
  | initOp
  | sendOp
  | uploadOp
deriving DecidableEq, Repr

/-- The whole system: component state plus the calls currently in flight. -/
structure SysState where
  client : ClientState
  pending : List OpKind
deriving DecidableEq, Repr

/-- At mount the effect issues `checkState()`, so one state fetch is
already in flight. -/
def sysInit : SysState :=
  { client := initialState, pending := [OpKind.fetchStateOp] }

deriving instance DecidableEq for Except

/-- Events: user interactions that start a handler, and resolutions of
in-flight calls (each carrying the backend's response). -/
inductive SEvent where
  | resolveFetch (r : Except Unit StateResponse)
  | submitInit
  | resolveInit (r : Except Unit Unit) (sr : Except Unit StateResponse)
  | setInput (v : String)
  | submitSend
  | resolveSend (r : Except Unit ChatResponse)
  | submitUpload (files : Option (List String))
  | resolveUpload (r : Except Unit UploadResponse)
  | clickRefresh
  | clickClear
deriving DecidableEq, Repr

/-- One step of the interleaved system.  `none` means the event cannot
fire in this state (its UI trigger is not rendered or is disabled, or no
matching call is in flight).  `handleInit` performs two awaits (the init
post, then its `checkState` refresh); its resolution event carries both
results. -/
def sysStep (s : SysState) : SEvent → Option SysState
  | .resolveFetch r =>
    if OpKind.fetchStateOp ∈ s.pending then
      some { client := checkState s.client r
           , pending := s.pending.erase OpKind.fetchStateOp }
    else none
  | .submitInit =>
    if s.client.initialized = false ∧ s.client.loading = false then
      some { client := { s.client with loading := true }
           , pending := OpKind.initOp :: s.pending }
    else none
  | .resolveInit r sr =>
    if OpKind.initOp ∈ s.pending then
      let c' :=
        match r with
        | .ok _ =>
          { checkState s.client sr with
              statusMessage := "Session initialized successfully."
            , loading := false }
        | .error _ =>
          { s.client with
              errorMessage := "Initialization failed. Please verify your settings."
            , loading := false }
      some { client := c', pending := s.pending.erase OpKind.initOp }
    else none
  | .setInput v =>
    if s.client.initialized = true ∧ s.client.loading = false then
      some { s with client := { s.client with input := v } }
    else none
  | .submitSend =>
    if s.client.initialized = true ∧ s.client.loading = false then
      if jsTrim s.client.input = "" then some s
      else
        some { client := handleSendPending s.client
             , pending := OpKind.sendOp :: s.pending }
    else none
  | .resolveSend r =>
    if OpKind.sendOp ∈ s.pending then
      some { client := sendResolve s.client r
           , pending := s.pending.erase OpKind.sendOp }
    else none
  | .submitUpload files =>
    if s.client.initialized = true ∧ s.client.uploading = false then
      match files with
      | none => some s
      | some fs =>
        if fs.length = 0 then some s
        else
          some { client := { s.client with uploading := true }
               , pending := OpKind.uploadOp :: s.pending }
    else none
  | .resolveUpload r =>
    if OpKind.uploadOp ∈ s.pending then
      some { client := uploadResolve s.client r
           , pending := s.pending.erase OpKind.uploadOp }
    else none
  | .clickRefresh =>
    if s.client.initialized = true ∧ s.client.loading = false then
      some { s with pending := OpKind.fetchStateOp :: s.pending }
    else none
  | .clickClear =>
    if s.client.initialized = true then
      some { s with client := clearView s.client }
    else none

/-- Run a list of events from a given state; `none` if any event cannot
fire where it occurs. -/
def runFrom (s : SysState) : List SEvent → Option SysState
  | [] => some s
  | e :: es =>
    match sysStep s e with
    | some s' => runFrom s' es
    | none => none

/-- Run a list of events from the mount state. -/
def sysRun (es : List SEvent) : Option SysState :=
  runFrom sysInit es

/-! ## Handler-level claims -/

/-- A ready chat state with the input "hello" typed, used to witness the
send-path theorems. -/
def readyHello : ClientState :=
  { initialState with initialized := true, input := "hello" }

/-- A sample successful chat response. -/
def sampleChat : ChatResponse :=
  { response := "hi"
  , agent_name := some "coder"
  , messages := [{ role := "user", content := "hello" },
                 { role := "assistant", content := "hi" }] }

/-- C1: for every input that is non-empty after trimming, submitting it
while Ready first appends exactly one client-synthesized entry
`{role := "user", content := input}` to the displayed list, and if the
chat call succeeds the displayed list afterwards equals exactly the
backend-returned list (so no duplicate of the optimistic entry
remains). -/
theorem c1_send_optimistic_then_backend (s : ClientState)
    (hready : s.initialized = true) (hidle : s.loading = false)
    (h : jsTrim s.input ≠ "") :
    (handleSendPending s).messages
      = s.messages ++ [{ role := "user", content := s.input }] ∧
    ∀ r : ChatResponse, (handleSend s (Except.ok r)).1.messages = r.messages := by
  constructor
  · simp [handleSendPending, h]
  · intro r
    simp [handleSend, handleSendPending, sendResolve, h]

/-- Witness for C1 at the concrete state `readyHello` and response
`sampleChat`. -/
theorem c1_send_optimistic_then_backend_witness :
    (handleSendPending readyHello).messages
      = readyHello.messages ++ [{ role := "user", content := readyHello.input }] ∧
    (handleSend readyHello (Except.ok sampleChat)).1.messages = sampleChat.messages :=
  ⟨(c1_send_optimistic_then_backend readyHello rfl rfl (by decide)).1,
   (c1_send_optimistic_then_backend readyHello rfl rfl (by decide)).2 sampleChat⟩

/-- C2: when the chat call fails, the controller clears `loading`
(returning to Ready), keeps the optimistic user entry (no rollback),
surfaces an error message, and otherwise leaves the message list and the
current agent unchanged. -/
theorem c2_send_failure_no_rollback (s : ClientState)
    (hready : s.initialized = true) (hidle : s.loading = false)
    (h : jsTrim s.input ≠ "") :
    (handleSend s (Except.error ())).1.loading = false ∧
    (handleSend s (Except.error ())).1.messages
      = s.messages ++ [{ role := "user", content := s.input }] ∧
    (handleSend s (Except.error ())).1.errorMessage
      = "Message failed. Please try again." ∧
    (handleSend s (Except.error ())).1.currentAgent = s.currentAgent := by
  refine ⟨?_, ?_, ?_, ?_⟩ <;>
    simp [handleSend, handleSendPending, sendResolve, h]

/-- Witness for C2 at the concrete state `readyHello`. -/
theorem c2_send_failure_no_rollback_witness :
    (handleSend readyHello (Except.error ())).1.loading = false ∧
    (handleSend readyHello (Except.error ())).1.messages
      = readyHello.messages ++ [{ role := "user", content := readyHello.input }] ∧
    (handleSend readyHello (Except.error ())).1.errorMessage
      = "Message failed. Please try again." ∧
    (handleSend readyHello (Except.error ())).1.currentAgent = readyHello.currentAgent :=
  c2_send_failure_no_rollback readyHello rfl rfl (by decide)

/-- C5: submitting an input that is empty after trimming issues no
request and leaves the entire client state unchanged, whatever the
ambient network would have answered. -/
theorem c5_empty_input_noop (s : ClientState) (h : jsTrim s.input = "") :
    ∀ r : Except Unit ChatResponse, handleSend s r = (s, []) := by
  intro r
  simp [handleSend, h]

/-- Witness for C5 on a whitespace-only input. -/
theorem c5_empty_input_noop_witness :
    handleSend { initialState with initialized := true, input := "   " }
        (Except.error ())
      = ({ initialState with initialized := true, input := "   " }, []) :=
  c5_empty_input_noop { initialState with initialized := true, input := "   " }
    (by decide) (Except.error ())

/-- C6: a file-selection event with a missing or empty file list issues
no request and leaves the entire client state unchanged, including the
`uploading` flag. -/
theorem c6_empty_upload_noop (s : ClientState) (files : Option (List String))
    (h : files = none ∨ files = some []) :
    ∀ r : Except Unit UploadResponse, handleUpload s files r = (s, []) := by
  rcases h with h | h <;> subst h <;> intro r <;> simp [handleUpload]

/-- Witness for C6 with no file list selected. -/
theorem c6_empty_upload_noop_witness :
    handleUpload initialState none (Except.error ()) = (initialState, []) :=
  c6_empty_upload_noop initialState none (Or.inl rfl) (Except.error ())

/-- C8: at client start the configuration holds exactly the documented
defaults, and a state fetch reporting `initialized = false` leaves the
client in the uninitialized state with an empty message list. -/
theorem c8_defaults_and_uninitialized_mount (r : StateResponse)
    (h : r.initialized = false) :
    initialState.config
      = { container_name := "auto_agent"
        , port := 12347
        , test_pull_name := "autoagent_mirror"
        , git_clone := true
        , local_env := false
        , model := "gpt-4o-2024-08-06" } ∧
    checkState initialState (Except.ok r) = initialState ∧
    initialState.initialized = false ∧
    initialState.messages = [] := by
  refine ⟨rfl, ?_, rfl, rfl⟩
  simp [checkState, h]

/-- Witness for C8 with a concrete uninitialized state response. -/
theorem c8_defaults_and_uninitialized_mount_witness :
    initialState.config
      = { container_name := "auto_agent"
        , port := 12347
        , test_pull_name := "autoagent_mirror"
        , git_clone := true
        , local_env := false
        , model := "gpt-4o-2024-08-06" } ∧
    checkState initialState
        (Except.ok { initialized := false, messages := none
                   , available_agents := none, agent_name := none })
      = initialState ∧
    initialState.initialized = false ∧
    initialState.messages = [] :=
  c8_defaults_and_uninitialized_mount
    { initialized := false, messages := none
    , available_agents := none, agent_name := none } rfl

/-- C9: the recognized roles user, assistant, system and tool get their
respective labels, and any unrecognized role falls back to the default
label instead of failing. -/
theorem c9_role_label_fallback (role : String)
    (h : role ≠ "user" ∧ role ≠ "assistant" ∧ role ≠ "system" ∧ role ≠ "tool") :
    formatRoleLabel "user" = "You" ∧
    formatRoleLabel "assistant" = "Assistant" ∧
    formatRoleLabel "system" = "System" ∧
    formatRoleLabel "tool" = "Tool" ∧
    formatRoleLabel role = "You" := by
  obtain ⟨-, h2, h3, h4⟩ := h
  refine ⟨by decide, by decide, by decide, by decide, ?_⟩
  simp [formatRoleLabel, h2, h3, h4]

/-- Witness for C9 at the unknown role "critic". -/
theorem c9_role_label_fallback_witness :
    formatRoleLabel "user" = "You" ∧
    formatRoleLabel "assistant" = "Assistant" ∧
    formatRoleLabel "system" = "System" ∧
    formatRoleLabel "tool" = "Tool" ∧
    formatRoleLabel "critic" = "You" :=
  c9_role_label_fallback "critic" (by decide)

/-- C10: after a successful state fetch reporting `initialized = true`,
the stored message and agent lists are the response's lists with `[]`
substituted when the corresponding field is absent, so both are always
well-defined sequences. -/
theorem c10_missing_fields_default_empty (s : ClientState) (r : StateResponse)
    (h : r.initialized = true) :
    (checkState s (Except.ok r)).messages = r.messages.getD [] ∧
    (checkState s (Except.ok r)).availableAgents = r.available_agents.getD [] ∧
    (r.messages = none → (checkState s (Except.ok r)).messages = []) ∧
    (r.available_agents = none →
      (checkState s (Except.ok r)).availableAgents = []) := by
  refine ⟨?_, ?_, ?_, ?_⟩
  · simp [checkState, h]
  · simp [checkState, h]
  · intro hm; simp [checkState, h, hm]
  · intro ha; simp [checkState, h, ha]

/-- Witness for C10 on a response with both optional lists absent. -/
theorem c10_missing_fields_default_empty_witness :
    (checkState initialState
        (Except.ok { initialized := true, messages := none
                   , available_agents := none, agent_name := some "coder" })).messages
      = (none : Option (List Message)).getD [] ∧
    (checkState initialState
        (Except.ok { initialized := true, messages := none
                   , available_agents := none, agent_name := some "coder" })).availableAgents
      = (none : Option (List String)).getD [] ∧
    ((none : Option (List Message)) = none →
      (checkState initialState
        (Except.ok { initialized := true, messages := none
                   , available_agents := none, agent_name := some "coder" })).messages = []) ∧
    ((none : Option (List String)) = none →
      (checkState initialState
        (Except.ok { initialized := true, messages := none
                   , available_agents := none, agent_name := some "coder" })).availableAgents = []) :=
  c10_missing_fields_default_empty initialState
    { initialized := true, messages := none
    , available_agents := none, agent_name := some "coder" } rfl

/-! ## Step-level claims -/

/-- Whether an event delivers a successful state response reporting
`initialized = true` (either a plain state fetch or the refresh inside
`handleInit`). -/
def eventReportsInitialized : SEvent → Bool
  | .resolveFetch (.ok d) => d.initialized
  | .resolveInit (.ok _) (.ok d) => d.initialized
  | _ => false

/-- `checkState` computes the `initialized` flag as the disjunction of
the old flag and what the response reports. -/
lemma checkState_initialized_eq (c : ClientState) (r : Except Unit StateResponse) :
    (checkState c r).initialized
      = (c.initialized
          || (match r with | .ok d => d.initialized | .error _ => false)) := by
  cases r with
  | error u => simp [checkState]
  | ok d =>
    by_cases hd : d.initialized = true
    · simp [checkState, hd]
    · simp at hd
      simp [checkState, hd]

/-- Across any step, the `initialized` flag is the disjunction of its old
value and what the step's event reports. -/
lemma sysStep_initialized_eq (s : SysState) (e : SEvent) (s' : SysState)
    (h : sysStep s e = some s') :
    s'.client.initialized
      = (s.client.initialized || eventReportsInitialized e) := by
  cases e with
  | resolveFetch r =>
    simp only [sysStep] at h
    split at h
    · injection h with h
      subst h
      cases r with
      | error u => simp [checkState, eventReportsInitialized]
      | ok d => simp [checkState_initialized_eq, eventReportsInitialized]
    · cases h
  | submitInit =>
    simp only [sysStep] at h
    split at h
    · injection h with h
      subst h
      simp [eventReportsInitialized]
    · cases h
  | resolveInit r sr =>
    simp only [sysStep] at h
    split at h
    · injection h with h
      subst h
      cases r with
      | error u => simp [eventReportsInitialized]
      | ok u =>
        cases sr with
        | error v => simp [checkState, eventReportsInitialized]
        | ok d => simp [checkState_initialized_eq, eventReportsInitialized]
    · cases h
  | setInput v =>
    simp only [sysStep] at h
    split at h
    · injection h with h
      subst h
      simp [eventReportsInitialized]
    · cases h
  | submitSend =>
    simp only [sysStep] at h
    split at h
    · split at h <;>
        · injection h with h
          subst h
          simp [handleSendPending, eventReportsInitialized]
          try (split <;> simp)
    · cases h
  | resolveSend r =>
    simp only [sysStep] at h
    split at h
    · injection h with h
      subst h
      cases r with
      | error u => simp [sendResolve, eventReportsInitialized]
      | ok d => simp [sendResolve, eventReportsInitialized]
    · cases h
  | submitUpload files =>
    simp only [sysStep] at h
    split at h
    · cases files with
      | none =>
        simp only at h
        injection h with h
        subst h
        simp [eventReportsInitialized]
      | some fs =>
        simp only at h
        split at h <;>
          · injection h with h
            subst h
            simp [eventReportsInitialized]
    · cases h
  | resolveUpload r =>
    simp only [sysStep] at h
    split at h
    · injection h with h
      subst h
      cases r with
      | error u => simp [uploadResolve, eventReportsInitialized]
      | ok d => simp [uploadResolve, eventReportsInitialized]
    · cases h
  | clickRefresh =>
    simp only [sysStep] at h
    split at h
    · injection h with h
      subst h
      simp [eventReportsInitialized]
    · cases h
  | clickClear =>
    simp only [sysStep] at h
    split at h
    · injection h with h
      subst h
      simp [clearView, eventReportsInitialized]
    · cases h

/-- Any invariant preserved by every step holds at the end of every run
that starts in a state satisfying it. -/
lemma runFrom_inv {P : SysState → Prop}
    (hstep : ∀ s e s', sysStep s e = some s' → P s → P s') :
    ∀ (es : List SEvent) (s0 s : SysState),
      runFrom s0 es = some s → P s0 → P s := by
  intro es
  induction es with
  | nil =>
    intro s0 s h hp
    injection h with h
    subst h
    exact hp
  | cons e es ih =>
    intro s0 s h hp
    simp only [runFrom] at h
    cases heq : sysStep s0 e with
    | none => rw [heq] at h; cases h
    | some s1 =>
      rw [heq] at h
      exact ih s1 s h (hstep s0 e s1 heq hp)

/-- C7: the `initialized` flag starts false at mount, is set to true only
by an event delivering a state response that reports `initialized = true`,
and once true it stays true for the rest of the instance's lifetime (no
event resets it). -/
theorem c7_initialized_monotone :
    sysInit.client.initialized = false ∧
    (∀ (s : SysState) (e : SEvent) (s' : SysState), sysStep s e = some s' →
        s.client.initialized = true → s'.client.initialized = true) ∧
    (∀ (s : SysState) (e : SEvent) (s' : SysState), sysStep s e = some s' →
        s'.client.initialized = true →
        s.client.initialized = true ∨ eventReportsInitialized e = true) ∧
    (∀ (es : List SEvent) (s0 s : SysState), runFrom s0 es = some s →
        s0.client.initialized = true → s.client.initialized = true) := by
  refine ⟨rfl, ?_, ?_, ?_⟩
  · intro s e s' h hi
    rw [sysStep_initialized_eq s e s' h, hi, Bool.true_or]
  · intro s e s' h hi
    rw [sysStep_initialized_eq s e s' h] at hi
    exact Bool.or_eq_true_iff.mp hi
  · exact runFrom_inv (fun s e s' h hi => by
      rw [sysStep_initialized_eq s e s' h, hi, Bool.true_or])

/-- An already-initialized idle chat state, used to witness the
step-level theorems. -/
def readyState : SysState :=
  { client := { initialState with initialized := true }, pending := [] }

/-- Witness for C7: a concrete clear-view step out of an initialized
state keeps the flag true. -/
theorem c7_initialized_monotone_witness :
    sysInit.client.initialized = false ∧
    ({ readyState with client := clearView readyState.client } : SysState).client.initialized = true :=
  ⟨c7_initialized_monotone.1,
   c7_initialized_monotone.2.1 readyState SEvent.clickClear
     { readyState with client := clearView readyState.client } (by decide) rfl⟩

/-- `checkState` never touches the `loading` flag. -/
lemma checkState_loading (c : ClientState) (r : Except Unit StateResponse) :
    (checkState c r).loading = c.loading := by
  cases r with
  | error u => simp [checkState]
  | ok d =>
    by_cases hd : d.initialized = true
    · simp [checkState, hd]
    · simp at hd
      simp [checkState, hd]

/-- `checkState` never touches the `uploading` flag. -/
lemma checkState_uploading (c : ClientState) (r : Except Unit StateResponse) :
    (checkState c r).uploading = c.uploading := by
  cases r with
  | error u => simp [checkState]
  | ok d =>
    by_cases hd : d.initialized = true
    · simp [checkState, hd]
    · simp at hd
      simp [checkState, hd]

/-- The chat resolution always clears `loading`. -/
lemma sendResolve_loading (c : ClientState) (r : Except Unit ChatResponse) :
    (sendResolve c r).loading = false := by
  cases r <;> simp [sendResolve]

/-- The chat resolution never touches the `uploading` flag. -/
lemma sendResolve_uploading (c : ClientState) (r : Except Unit ChatResponse) :
    (sendResolve c r).uploading = c.uploading := by
  cases r <;> simp [sendResolve]

/-- The upload resolution always clears `uploading`. -/
lemma uploadResolve_uploading (c : ClientState) (r : Except Unit UploadResponse) :
    (uploadResolve c r).uploading = false := by
  cases r <;> simp [uploadResolve]

/-- The upload resolution never touches the `loading` flag. -/
lemma uploadResolve_loading (c : ClientState) (r : Except Unit UploadResponse) :
    (uploadResolve c r).loading = c.loading := by
  cases r <;> simp [uploadResolve]

/-- The busy flags exactly track the in-flight calls: `loading` is up for
exactly one pending send or init, `uploading` for exactly one pending
upload. -/
def busyInv (s : SysState) : Prop :=
  s.pending.count OpKind.sendOp + s.pending.count OpKind.initOp
      = cond s.client.loading 1 0 ∧
  s.pending.count OpKind.uploadOp = cond s.client.uploading 1 0

/-- The busy invariant holds at mount. -/
lemma busyInv_init : busyInv sysInit := by
  constructor <;> rfl

/-- The busy invariant is preserved by every step. -/
lemma busyInv_step (s : SysState) (e : SEvent) (s' : SysState)
    (h : sysStep s e = some s') (hinv : busyInv s) : busyInv s' := by
  obtain ⟨h1, h2⟩ := hinv
  have eSF : (s.pending.erase OpKind.fetchStateOp).count OpKind.sendOp
      = s.pending.count OpKind.sendOp := List.count_erase_of_ne (by decide) _
  have eIF : (s.pending.erase OpKind.fetchStateOp).count OpKind.initOp
      = s.pending.count OpKind.initOp := List.count_erase_of_ne (by decide) _
  have eUF : (s.pending.erase OpKind.fetchStateOp).count OpKind.uploadOp
      = s.pending.count OpKind.uploadOp := List.count_erase_of_ne (by decide) _
  have eSI : (s.pending.erase OpKind.initOp).count OpKind.sendOp
      = s.pending.count OpKind.sendOp := List.count_erase_of_ne (by decide) _
  have eII : (s.pending.erase OpKind.initOp).count OpKind.initOp
      = s.pending.count OpKind.initOp - 1 := List.count_erase_self _ _
  have eUI : (s.pending.erase OpKind.initOp).count OpKind.uploadOp
      = s.pending.count OpKind.uploadOp := List.count_erase_of_ne (by decide) _
  have eSS : (s.pending.erase OpKind.sendOp).count OpKind.sendOp
      = s.pending.count OpKind.sendOp - 1 := List.count_erase_self _ _
  have eIS : (s.pending.erase OpKind.sendOp).count OpKind.initOp
      = s.pending.count OpKind.initOp := List.count_erase_of_ne (by decide) _
  have eUS : (s.pending.erase OpKind.sendOp).count OpKind.uploadOp
      = s.pending.count OpKind.uploadOp := List.count_erase_of_ne (by decide) _
  have eSU : (s.pending.erase OpKind.uploadOp).count OpKind.sendOp
      = s.pending.count OpKind.sendOp := List.count_erase_of_ne (by decide) _
  have eIU : (s.pending.erase OpKind.uploadOp).count OpKind.initOp
      = s.pending.count OpKind.initOp := List.count_erase_of_ne (by decide) _
  have eUU : (s.pending.erase OpKind.uploadOp).count OpKind.uploadOp
      = s.pending.count OpKind.uploadOp - 1 := List.count_erase_self _ _
  cases e with
  | resolveFetch r =>
    simp only [sysStep] at h
    split at h
    · injection h with h
      subst h
      refine ⟨?_, ?_⟩
      · simp only [eSF, eIF, checkState_loading]
        exact h1
      · simp only [eUF, checkState_uploading]
        exact h2
    · cases h
  | submitInit =>
    simp only [sysStep] at h
    split at h
    · rename_i hc
      injection h with h
      subst h
      rw [hc.2] at h1
      simp only [Bool.cond_false] at h1
      refine ⟨?_, ?_⟩
      · simp only [List.count_cons, Bool.cond_true]
        simp
        omega
      · simp only [List.count_cons]
        simp
        exact h2
    · cases h
  | resolveInit r sr =>
    simp only [sysStep] at h
    split at h
    · rename_i hc
      injection h with h
      subst h
      have hpos := List.count_pos_iff.mpr hc
      cases hL : s.client.loading with
      | false =>
        rw [hL] at h1
        simp only [Bool.cond_false] at h1
        omega
      | true =>
        rw [hL] at h1
        simp only [Bool.cond_true] at h1
        cases r with
        | ok u =>
          refine ⟨?_, ?_⟩
          · simp only [eSI, eII, Bool.cond_false]
            omega
          · simp only [eUI, checkState_uploading]
            exact h2
        | error u =>
          refine ⟨?_, ?_⟩
          · simp only [eSI, eII, Bool.cond_false]
            omega
          · simp only [eUI]
            exact h2
    · cases h
  | setInput v =>
    simp only [sysStep] at h
    split at h
    · injection h with h
      subst h
      exact ⟨h1, h2⟩
    · cases h
  | submitSend =>
    simp only [sysStep] at h
    split at h
    · rename_i hc
      split at h
      · injection h with h
        subst h
        exact ⟨h1, h2⟩
      · rename_i hne
        injection h with h
        subst h
        rw [hc.2] at h1
        simp only [Bool.cond_false] at h1
        refine ⟨?_, ?_⟩
        · simp only [List.count_cons, handleSendPending, if_neg hne]
          simp
          omega
        · simp only [List.count_cons, handleSendPending, if_neg hne]
          simp
          exact h2
    · cases h
  | resolveSend r =>
    simp only [sysStep] at h
    split at h
    · rename_i hc
      injection h with h
      subst h
      have hpos := List.count_pos_iff.mpr hc
      cases hL : s.client.loading with
      | false =>
        rw [hL] at h1
        simp only [Bool.cond_false] at h1
        omega
      | true =>
        rw [hL] at h1
        simp only [Bool.cond_true] at h1
        refine ⟨?_, ?_⟩
        · simp only [eSS, eIS, sendResolve_loading, Bool.cond_false]
          omega
        · simp only [eUS, sendResolve_uploading]
          exact h2
    · cases h
  | submitUpload files =>
    cases files with
    | none =>
      simp only [sysStep] at h
      split at h
      · injection h with h
        subst h
        exact ⟨h1, h2⟩
      · cases h
    | some fs =>
      simp only [sysStep] at h
      split at h
      · rename_i hc
        split at h
        · injection h with h
          subst h
          exact ⟨h1, h2⟩
        · injection h with h
          subst h
          rw [hc.2] at h2
          simp only [Bool.cond_false] at h2
          refine ⟨?_, ?_⟩
          · simp only [List.count_cons]
            simp
            exact h1
          · simp only [List.count_cons, Bool.cond_true]
            simp
            omega
      · cases h
  | resolveUpload r =>
    simp only [sysStep] at h
    split at h
    · rename_i hc
      injection h with h
      subst h
      have hpos := List.count_pos_iff.mpr hc
      cases hU : s.client.uploading with
      | false =>
        rw [hU] at h2
        simp only [Bool.cond_false] at h2
        omega
      | true =>
        rw [hU] at h2
        simp only [Bool.cond_true] at h2
        refine ⟨?_, ?_⟩
        · simp only [eSU, eIU, uploadResolve_loading]
          exact h1
        · simp only [eUU, uploadResolve_uploading, Bool.cond_false]
          omega
    · cases h
  | clickRefresh =>
    simp only [sysStep] at h
    split at h
    · injection h with h
      subst h
      refine ⟨?_, ?_⟩
      · simp only [List.count_cons]
        simp
        exact h1
      · simp only [List.count_cons]
        simp
        exact h2
    · cases h
  | clickClear =>
    simp only [sysStep] at h
    split at h
    · injection h with h
      subst h
      exact ⟨h1, h2⟩
    · cases h

/-- A run in which an upload is started while a send is still in flight:
mount fetch resolves initialized, the user types "hi", submits it, and
then selects a file before the chat call returns. -/
def c4Trace : List SEvent :=
  [ SEvent.resolveFetch (Except.ok
      { initialized := true, messages := some []
      , available_agents := some [], agent_name := some "coder" })
  , SEvent.setInput "hi"
  , SEvent.submitSend
  , SEvent.submitUpload (some ["notes.txt"]) ]

/-- The state reached by `c4Trace`: both a send and an upload in
flight. -/
def c4Final : SysState :=
  { client :=
    { initialized := true
    , config := defaultConfig
    , loading := true
    , messages := [{ role := "user", content := "hi" }]
    , input := ""
    , availableAgents := []
    , currentAgent := some "coder"
    , uploading := true
    , statusMessage := ""
    , errorMessage := "" }
  , pending := [OpKind.uploadOp, OpKind.sendOp] }

/-- C4 counterexample: the controller does not keep state-changing calls
mutually exclusive — after `c4Trace` a send and an upload are in flight
at the same time, refuting the at-most-one-in-flight claim. -/
theorem c4_overlapping_calls_counterexample :
    sysRun c4Trace = some c4Final ∧
    ¬ (c4Final.pending.length ≤ 1) ∧
    ¬ (∀ (es : List SEvent) (s : SysState), sysRun es = some s →
          s.pending.length ≤ 1) := by
  refine ⟨by decide, by decide, ?_⟩
  intro hall
  exact absurd (hall c4Trace c4Final (by decide)) (by decide)

/-- C4 (amended): the `loading` and `uploading` guards do ensure that at
most one send-or-init call and at most one upload call are in flight at
any reachable state; they do not prevent a send and an upload (or state
fetches) from overlapping. -/
theorem c4_amended_at_most_one_send_and_upload :
    ∀ (es : List SEvent) (s : SysState), sysRun es = some s →
      s.pending.count OpKind.sendOp + s.pending.count OpKind.initOp ≤ 1 ∧
      s.pending.count OpKind.uploadOp ≤ 1 := by
  intro es s h
  have hb : busyInv s := runFrom_inv busyInv_step es sysInit s h busyInv_init
  obtain ⟨h1, h2⟩ := hb
  constructor
  · rw [h1]
    cases s.client.loading <;> simp
  · rw [h2]
    cases s.client.uploading <;> simp

/-- Witness for the amended C4 at the concrete run `c4Trace`. -/
theorem c4_amended_at_most_one_send_and_upload_witness :
    c4Final.pending.count OpKind.sendOp + c4Final.pending.count OpKind.initOp ≤ 1 ∧
    c4Final.pending.count OpKind.uploadOp ≤ 1 :=
  c4_amended_at_most_one_send_and_upload c4Trace c4Final (by decide)

/-! ## Backend-derived message lists (C3) -/

/-- The message lists delivered by the backend in one event: a state
response applied by `checkState` (directly or inside `handleInit`)
contributes its message list (after the `|| []` fallback) when it reports
initialized, and a successful chat response contributes its list. -/
def eventBackendLists : SEvent → List (List Message)
  | .resolveFetch (.ok d) => cond d.initialized [d.messages.getD []] []
  | .resolveInit (.ok _) (.ok d) => cond d.initialized [d.messages.getD []] []
  | .resolveSend (.ok d) => [d.messages]
  | _ => []

/-- All message lists a run could have displayed without client-side
synthesis: the initial empty list plus every backend-delivered list. -/
def traceBackendLists (es : List SEvent) : List (List Message) :=
  [] :: es.flatMap eventBackendLists

/-- The displayed list is backend-derived up to at most ONE transient
client-synthesized user entry (the claim's invariant). -/
def BackendDerived (A : List (List Message)) (c : ClientState) : Prop :=
  c.messages ∈ A ∨
  ∃ b m, b ∈ A ∧ m.role = "user" ∧ c.messages = b ++ [m]

/-- The weaker decomposition that actually holds: the displayed list is a
backend-derived (or initial/cleared empty) list followed by a suffix of
client-synthesized user entries. -/
def BackendDecomp (A : List (List Message)) (c : ClientState) : Prop :=
  ∃ b suf, b ∈ A ∧ c.messages = b ++ suf ∧ ∀ m ∈ suf, m.role = "user"

lemma backendDecomp_mono {A A' : List (List Message)} {c : ClientState}
    (hsub : ∀ b ∈ A, b ∈ A') (h : BackendDecomp A c) : BackendDecomp A' c := by
  obtain ⟨b, suf, hb, hm, hs⟩ := h
  exact ⟨b, suf, hsub b hb, hm, hs⟩

lemma backendDecomp_of_messages_eq {A : List (List Message)}
    {c c' : ClientState} (hEq : c'.messages = c.messages)
    (h : BackendDecomp A c) : BackendDecomp A c' := by
  obtain ⟨b, suf, hb, hm, hs⟩ := h
  exact ⟨b, suf, hb, hEq ▸ hm, hs⟩

lemma backendDecomp_of_mem {A : List (List Message)} {c : ClientState}
    (h : c.messages ∈ A) : BackendDecomp A c :=
  ⟨c.messages, [], h, by simp, by simp⟩

/-- One step extends the displayed list only by a user entry, resets it,
or replaces it by a backend-delivered list. -/
lemma backendDecomp_step {A : List (List Message)} {s s' : SysState} {e : SEvent}
    (hA : ([] : List Message) ∈ A)
    (h : sysStep s e = some s') (hd : BackendDecomp A s.client) :
    BackendDecomp (A ++ eventBackendLists e) s'.client := by
  have hmono : ∀ b ∈ A, b ∈ A ++ eventBackendLists e :=
    fun b hb => List.mem_append_left _ hb
  cases e with
  | resolveFetch r =>
    simp only [sysStep] at h
    split at h
    · injection h with h
      subst h
      cases r with
      | error u =>
        exact backendDecomp_mono hmono
          (backendDecomp_of_messages_eq (by simp [checkState]) hd)
      | ok d =>
        by_cases hd0 : d.initialized = true
        · apply backendDecomp_of_mem
          have : (checkState s.client (Except.ok d)).messages = d.messages.getD [] := by
            simp [checkState, hd0]
          rw [this]
          exact List.mem_append_right _ (by simp [eventBackendLists, hd0])
        · simp at hd0
          exact backendDecomp_mono hmono
            (backendDecomp_of_messages_eq (by simp [checkState, hd0]) hd)
    · cases h
  | submitInit =>
    simp only [sysStep] at h
    split at h
    · injection h with h
      subst h
      exact backendDecomp_mono hmono (backendDecomp_of_messages_eq rfl hd)
    · cases h
  | resolveInit r sr =>
    simp only [sysStep] at h
    split at h
    · injection h with h
      subst h
      cases r with
      | error u =>
        exact backendDecomp_mono hmono (backendDecomp_of_messages_eq rfl hd)
      | ok u =>
        cases sr with
        | error v =>
          exact backendDecomp_mono hmono
            (backendDecomp_of_messages_eq (by simp [checkState]) hd)
        | ok d =>
          by_cases hd0 : d.initialized = true
          · apply backendDecomp_of_mem
            have : (checkState s.client (Except.ok d)).messages = d.messages.getD [] := by
              simp [checkState, hd0]
            simp only [this]
            exact List.mem_append_right _ (by simp [eventBackendLists, hd0])
          · simp at hd0
            exact backendDecomp_mono hmono
              (backendDecomp_of_messages_eq (by simp [checkState, hd0]) hd)
    · cases h
  | setInput v =>
    simp only [sysStep] at h
    split at h
    · injection h with h
      subst h
      exact backendDecomp_mono hmono (backendDecomp_of_messages_eq rfl hd)
    · cases h
  | submitSend =>
    simp only [sysStep] at h
    split at h
    · split at h
      · injection h with h
        subst h
        exact backendDecomp_mono hmono (backendDecomp_of_messages_eq rfl hd)
      · rename_i hne
        injection h with h
        subst h
        obtain ⟨b, suf, hb, hm, hs⟩ := hd
        refine ⟨b, suf ++ [{ role := "user", content := s.client.input }],
          hmono b hb, ?_, ?_⟩
        · simp [handleSendPending, hne, hm]
        · intro m hmem
          rcases List.mem_append.mp hmem with hmem | hmem
          · exact hs m hmem
          · simp at hmem
            subst hmem
            rfl
    · cases h
  | resolveSend r =>
    simp only [sysStep] at h
    split at h
    · injection h with h
      subst h
      cases r with
      | error u =>
        exact backendDecomp_mono hmono
          (backendDecomp_of_messages_eq (by simp [sendResolve]) hd)
      | ok d =>
        apply backendDecomp_of_mem
        have : (sendResolve s.client (Except.ok d)).messages = d.messages := by
          simp [sendResolve]
        rw [this]
        exact List.mem_append_right _ (by simp [eventBackendLists])
    · cases h
  | submitUpload files =>
    cases files with
    | none =>
      simp only [sysStep] at h
      split at h
      · injection h with h
        subst h
        exact backendDecomp_mono hmono (backendDecomp_of_messages_eq rfl hd)
      · cases h
    | some fs =>
      simp only [sysStep] at h
      split at h
      · split at h <;>
          · injection h with h
            subst h
            exact backendDecomp_mono hmono (backendDecomp_of_messages_eq rfl hd)
      · cases h
  | resolveUpload r =>
    simp only [sysStep] at h
    split at h
    · injection h with h
      subst h
      cases r with
      | error u =>
        exact backendDecomp_mono hmono
          (backendDecomp_of_messages_eq (by simp [uploadResolve]) hd)
      | ok d =>
        exact backendDecomp_mono hmono
          (backendDecomp_of_messages_eq (by simp [uploadResolve]) hd)
    · cases h
  | clickRefresh =>
    simp only [sysStep] at h
    split at h
    · injection h with h
      subst h
      exact backendDecomp_mono hmono (backendDecomp_of_messages_eq rfl hd)
    · cases h
  | clickClear =>
    simp only [sysStep] at h
    split at h
    · injection h with h
      subst h
      apply backendDecomp_of_mem
      have : (clearView s.client).messages = [] := rfl
      rw [this]
      exact hmono [] hA
    · cases h

/-- The decomposition holds along every run, over the lists delivered so
far. -/
lemma backendDecomp_run :
    ∀ {es : List SEvent} {s0 s : SysState} {A : List (List Message)},
      runFrom s0 es = some s → ([] : List Message) ∈ A →
      BackendDecomp A s0.client →
      BackendDecomp (A ++ es.flatMap eventBackendLists) s.client := by
  intro es
  induction es with
  | nil =>
    intro s0 s A h hA hd
    injection h with h
    subst h
    simpa using hd
  | cons e es ih =>
    intro s0 s A h hA hd
    simp only [runFrom] at h
    cases heq : sysStep s0 e with
    | none => rw [heq] at h; cases h
    | some s1 =>
      rw [heq] at h
      have h1 := backendDecomp_step hA heq hd
      have h2 := ih h (List.mem_append_left _ hA) h1
      rw [List.flatMap_cons, ← List.append_assoc]
      exact h2

/-- A run with two consecutive failed sends: the mount fetch loads an
empty backend history, then "a" and "b" are each submitted and each chat
call fails, leaving both optimistic entries displayed. -/
def c3Trace : List SEvent :=
  [ SEvent.resolveFetch (Except.ok
      { initialized := true, messages := some []
      , available_agents := some [], agent_name := some "coder" })
  , SEvent.setInput "a"
  , SEvent.submitSend
  , SEvent.resolveSend (Except.error ())
  , SEvent.setInput "b"
  , SEvent.submitSend
  , SEvent.resolveSend (Except.error ()) ]

/-- The state reached by `c3Trace`: two client-synthesized user entries
displayed, none of them backend-confirmed. -/
def c3Final : SysState :=
  { client :=
    { initialized := true
    , config := defaultConfig
    , loading := false
    , messages := [{ role := "user", content := "a" },
                   { role := "user", content := "b" }]
    , input := ""
    , availableAgents := []
    , currentAgent := some "coder"
    , uploading := false
    , statusMessage := ""
    , errorMessage := "Message failed. Please try again." }
  , pending := [] }

/-- C3 counterexample: after two failed sends the displayed list carries
TWO client-synthesized entries on top of the backend's history, so it is
not a backend list plus at most one transient user entry. -/
theorem c3_backend_derivation_counterexample :
    sysRun c3Trace = some c3Final ∧
    ¬ BackendDerived (traceBackendLists c3Trace) c3Final.client := by
  constructor
  · decide
  · intro hcl
    have hA : traceBackendLists c3Trace = [[], []] := by decide
    rcases hcl with hmem | ⟨b, m, hb, hrole, heq⟩
    · rw [hA] at hmem
      exact absurd hmem (by decide)
    · rw [hA] at hb
      have hb0 : b = [] := by
        rcases List.mem_cons.mp hb with h | h
        · exact h
        · simpa using h
      subst hb0
      have hlen := congrArg List.length heq
      simp [c3Final] at hlen

/-- C3 (amended): at every reachable point the displayed list is a
backend-delivered list (or the initial/cleared empty list) followed by a
suffix of client-synthesized user entries; a failed send leaves its
optimistic entry in that suffix, so more than one can accumulate. -/
theorem c3_amended_backend_decomposition :
    ∀ (es : List SEvent) (s : SysState), sysRun es = some s →
      BackendDecomp (traceBackendLists es) s.client := by
  intro es s h
  have h0 : BackendDecomp [([] : List Message)] sysInit.client :=
    ⟨[], [], by simp, rfl, by simp⟩
  have h1 := backendDecomp_run h (by simp) h0
  rw [traceBackendLists]
  exact h1

/-- Witness for the amended C3 at the concrete run `c3Trace`. -/
theorem c3_amended_backend_decomposition_witness :
    BackendDecomp (traceBackendLists c3Trace) c3Final.client :=
  c3_amended_backend_decomposition c3Trace c3Final (by decide)
